import Mathlib

/-!
Verification of the retrieval-and-aggregation pipeline of the invasive
sea urchin tracker (src/api.js): the occurrence fetcher
(`fetchOccurrencesForSpecies`) and the grid aggregator (`computeGridCells`).

Modelling choices, all read from src/api.js:
- JavaScript field values that may be absent, null, or non-numeric are
  embedded as `JsValue`; numbers are embedded as `Rat`.
- The remote source is embedded as the list of responses it returns to
  the successive page requests (offsets 0, PAGE_LIMIT, 2*PAGE_LIMIT, ...);
  each response is either a non-success status (`Page.err`) or a JSON body
  with a results array and an endOfRecords flag (`Page.ok`).
- The JS `Map` used by the aggregator preserves first-insertion order of
  keys, so it is embedded as an insertion-ordered list of cells; the JS
  string key `latIdx_lngIdx` is injective in the pair of integer indices
  and is embedded as the pair itself.
-/

namespace UrchinTracker

/-- A JavaScript value stored in a field of a raw GBIF record. -/
inductive JsValue where
  | num (x : Rat)
  | str (s : String)
  | boolean (b : Bool)
  | null
  | undef
  deriving DecidableEq

/-- The check `typeof v === "number"` applied to a field. -/
def JsValue.isNumber : JsValue → Bool
  | .num _ => true
  | _ => false

/-- Numeric content of a field; only meaningful on fields that pass
`isNumber` (mirrors reading `r.decimalLatitude` after the filter). -/
def JsValue.toNum : JsValue → Rat
  | .num x => x
  | _ => 0

/-- A raw occurrence object from the results array of the remote source. -/
structure RawRecord where
  key : JsValue
  decimalLatitude : JsValue
  decimalLongitude : JsValue
  year : JsValue
  country : JsValue
  stateProvince : JsValue
  deriving DecidableEq

/-- A sanitized occurrence record, as produced by the map step of
`fetchOccurrencesForSpecies`. -/
structure OccurrenceRecord where
  key : JsValue
  lat : Rat
  lng : Rat
  year : JsValue
  country : JsValue
  stateProvince : JsValue
  deriving DecidableEq

/-- The filter predicate of the fetcher:
`typeof r.decimalLatitude === "number" && typeof r.decimalLongitude === "number"`. -/
def hasNumericCoords (r : RawRecord) : Bool :=
  r.decimalLatitude.isNumber && r.decimalLongitude.isNumber

/-- The map step of the fetcher: build the sanitized record shape. -/
def toOcc (r : RawRecord) : OccurrenceRecord :=
  { key := r.key
    lat := r.decimalLatitude.toNum
    lng := r.decimalLongitude.toNum
    year := r.year
    country := r.country
    stateProvince := r.stateProvince }

/-- The cleaning of one page: `pageResults.filter(...).map(...)`. -/
def sanitizePage (results : List RawRecord) : List OccurrenceRecord :=
  (results.filter hasNumericCoords).map toOcc

/-- One response of the remote source to a page request. -/
inductive Page where
  | ok (results : List RawRecord) (endOfRecords : Bool)
  | err (status : Nat) (statusText : String)
  deriving DecidableEq

/-- GBIF max page size (`PAGE_LIMIT` in src/api.js). -/
def PAGE_LIMIT : Nat := 300

/-- Per-species safety cap (`MAX_PER_SPECIES` in src/api.js). -/
def MAX_PER_SPECIES : Nat := 2000

/-- Result of running the fetch loop body. -/
inductive LoopResult where
  | done (all : List OccurrenceRecord) (requests : Nat)
  | fetchError (status : Nat) (statusText : String)
  | noResponse
  deriving DecidableEq

/-- The `while (all.length < maxRecords)` loop of
`fetchOccurrencesForSpecies`, consuming the remote responses in offset
order. `all` is the accumulator, `requests` counts issued requests.
`noResponse` is a model artifact: the loop would issue a request beyond
the responses supplied to the model. -/
def fetchGo (maxRecords : Nat) : List Page → List OccurrenceRecord → Nat → LoopResult
  | [], all, requests =>
      if all.length < maxRecords then .noResponse else .done all requests
  | page :: rest, all, requests =>
      if all.length < maxRecords then
        match page with
        | .err s t => .fetchError s t
        | .ok results endOfRecords =>
          let all2 := all ++ sanitizePage results
          if endOfRecords || results.length == 0 then .done all2 (requests + 1)
          else fetchGo maxRecords rest all2 (requests + 1)
      else .done all requests

/-- Outcome of `fetchOccurrencesForSpecies`: the returned record list
together with the number of requests issued, or the thrown error
(status and statusText of the failing response). -/
inductive FetchResult where
  | ok (records : List OccurrenceRecord) (requests : Nat)
  | error (status : Nat) (statusText : String)
  | noResponse
  deriving DecidableEq

/-- `fetchOccurrencesForSpecies`: run the pagination loop from an empty
accumulator and return `all.slice(0, maxRecords)`. -/
def fetchOccurrencesForSpecies (pages : List Page) (maxRecords : Nat) : FetchResult :=
  match fetchGo maxRecords pages [] 0 with
  | .done all requests => .ok (all.take maxRecords) requests
  | .fetchError s t => .error s t
  | .noResponse => .noResponse

/-- Grid cell accumulator, the value stored in the JS `Map` while
grouping (`{ latIdx, lngIdx, count, samples }`). -/
structure CellAcc where
  latIdx : Int
  lngIdx : Int
  count : Nat
  samples : List OccurrenceRecord
  deriving DecidableEq

/-- `Math.floor(x / cellSizeDeg)`. -/
def cellIndex (cellSizeDeg x : Rat) : Int := ⌊x / cellSizeDeg⌋

/-- The key of a cell accumulator (the JS string key
`latIdx_lngIdx`, embedded as the pair of indices). -/
def cellKey (c : CellAcc) : Int × Int := (c.latIdx, c.lngIdx)

/-- One iteration of the grouping loop: look the key up in the
insertion-ordered map, bump the count and push the sample if found,
append a fresh cell otherwise. -/
def addToGrid (latIdx lngIdx : Int) (o : OccurrenceRecord) : List CellAcc → List CellAcc
  | [] => [{ latIdx := latIdx, lngIdx := lngIdx, count := 1, samples := [o] }]
  | c :: rest =>
    if c.latIdx = latIdx ∧ c.lngIdx = lngIdx then
      { c with count := c.count + 1, samples := c.samples ++ [o] } :: rest
    else
      c :: addToGrid latIdx lngIdx o rest

/-- The `occurrences.forEach(...)` grouping pass of `computeGridCells`. -/
def buildGrid (cellSizeDeg : Rat) (occurrences : List OccurrenceRecord) : List CellAcc :=
  occurrences.foldl
    (fun grid o => addToGrid (cellIndex cellSizeDeg o.lat) (cellIndex cellSizeDeg o.lng) o grid)
    []

/-- The thresholds configuration `{ high, medium }`. -/
structure Thresholds where
  high : Nat
  medium : Nat
  deriving DecidableEq

/-- The risk classification chain of `computeGridCells`:
`if (count >= high) "High" else if (count >= medium) "Medium" else "Low"`. -/
def riskFor (high medium count : Nat) : String :=
  if high ≤ count then "High" else if medium ≤ count then "Medium" else "Low"

/-- An output grid cell of `computeGridCells`. -/
structure GridCell where
  id : Int × Int
  lat : Rat
  lng : Rat
  count : Nat
  risk : String
  samples : List OccurrenceRecord
  deriving DecidableEq

/-- Build one output cell from an accumulator: risk tier, center
coordinates `(idx + 0.5) * cellSizeDeg`, count and retained samples. -/
def mkCell (high medium : Nat) (cellSizeDeg : Rat) (c : CellAcc) : GridCell :=
  { id := (c.latIdx, c.lngIdx)
    lat := ((c.latIdx : Rat) + 1/2) * cellSizeDeg
    lng := ((c.lngIdx : Rat) + 1/2) * cellSizeDeg
    count := c.count
    risk := riskFor high medium c.count
    samples := c.samples }

/-- The summary block of the aggregation result. -/
structure Summary where
  totalRecords : Nat
  cellCount : Nat
  highCount : Nat
  medCount : Nat
  lowCount : Nat
  deriving DecidableEq

/-- The return value of `computeGridCells`. -/
structure AggregationResult where
  cells : List GridCell
  summary : Summary
  deriving DecidableEq

/-- The per-tier counters accumulated by the classification loop of
`computeGridCells`, as `(highCount, medCount, lowCount)`: each cell
bumps exactly the counter its if/else branch selects. -/
def tierCounts (high medium : Nat) : List CellAcc → Nat × Nat × Nat
  | [] => (0, 0, 0)
  | c :: rest =>
    let counts := tierCounts high medium rest
    if high ≤ c.count then (counts.1 + 1, counts.2.1, counts.2.2)
    else if medium ≤ c.count then (counts.1, counts.2.1 + 1, counts.2.2)
    else (counts.1, counts.2.1, counts.2.2 + 1)

/-- `computeGridCells`: group the occurrences into grid cells, classify
each cell, and emit the cell list plus the summary. -/
def computeGridCells (occurrences : List OccurrenceRecord) (cellSizeDeg : Rat)
    (thresholds : Thresholds) : AggregationResult :=
  let high := thresholds.high
  let medium := thresholds.medium
  let grid := buildGrid cellSizeDeg occurrences
  let cells := grid.map (mkCell high medium cellSizeDeg)
  let counts := tierCounts high medium grid
  { cells := cells
    summary :=
      { totalRecords := occurrences.length
        cellCount := cells.length
        highCount := counts.1
        medCount := counts.2.1
        lowCount := counts.2.2 } }

/-- The results array carried by one response (empty for a failure). -/
def pageResults : Page → List RawRecord
  | .ok results _ => results
  | .err _ _ => []

/-- All raw records carried by a list of responses. -/
def allRawResults (pages : List Page) : List RawRecord :=
  pages.flatMap pageResults

/-- Concrete records used to instantiate the theorems below. -/
def rawGood : RawRecord :=
  { key := .num 1, decimalLatitude := .num 2, decimalLongitude := .num 3,
    year := .num 2023, country := .str "US", stateProvince := .str "CA" }

/-- A raw record with a null latitude, as in the malformed-record example. -/
def rawBad : RawRecord :=
  { key := .num 2, decimalLatitude := .null, decimalLongitude := .num 3,
    year := .null, country := .null, stateProvince := .null }

/-- A sanitized occurrence with integer coordinates. -/
def pt0 : OccurrenceRecord :=
  { key := .null, lat := 2, lng := 3, year := .null, country := .null, stateProvince := .null }

lemma mem_sanitizePage {results : List RawRecord} {o : OccurrenceRecord} :
    o ∈ sanitizePage results ↔ ∃ r ∈ results, hasNumericCoords r = true ∧ o = toOcc r := by
  simp only [sanitizePage, List.mem_map, List.mem_filter]
  constructor
  · rintro ⟨r, ⟨hr, hn⟩, he⟩
    exact ⟨r, hr, hn, he.symm⟩
  · rintro ⟨r, hr, hn, he⟩
    exact ⟨r, ⟨hr, hn⟩, he.symm⟩

lemma fetchGo_done_mem {maxRecords : Nat} :
    ∀ (pages : List Page) (all : List OccurrenceRecord) (requests : Nat)
      (out : List OccurrenceRecord) (requests2 : Nat),
      fetchGo maxRecords pages all requests = .done out requests2 →
      ∀ o ∈ out, o ∈ all ∨
        ∃ r ∈ allRawResults pages, hasNumericCoords r = true ∧ o = toOcc r := by
  intro pages
  induction pages with
  | nil =>
    intro all requests out requests2 h o ho
    rw [fetchGo] at h
    split at h
    · cases h
    · cases h
      exact Or.inl ho
  | cons page rest ih =>
    intro all requests out requests2 h o ho
    cases page with
    | err s t =>
      rw [fetchGo] at h
      split at h
      · cases h
      · cases h
        exact Or.inl ho
    | ok results endOfRecords =>
      rw [fetchGo] at h
      split at h
      · split at h
        · cases h
          rcases List.mem_append.mp ho with hl | hr
          · exact Or.inl hl
          · rcases mem_sanitizePage.mp hr with ⟨r, hr2, hn, he⟩
            refine Or.inr ⟨r, ?_, hn, he⟩
            simp only [allRawResults, List.flatMap_cons, List.mem_append, pageResults]
            exact Or.inl hr2
        · rcases ih _ _ _ _ h o ho with hl | ⟨r, hr2, hn, he⟩
          · rcases List.mem_append.mp hl with hl2 | hr2
            · exact Or.inl hl2
            · rcases mem_sanitizePage.mp hr2 with ⟨r, hr3, hn, he⟩
              refine Or.inr ⟨r, ?_, hn, he⟩
              simp only [allRawResults, List.flatMap_cons, List.mem_append, pageResults]
              exact Or.inl hr3
          · refine Or.inr ⟨r, ?_, hn, he⟩
            simp only [allRawResults, List.flatMap_cons, List.mem_append]
            exact Or.inr (by simpa [allRawResults] using hr2)
      · cases h
        exact Or.inl ho

/-- Claim C3: for every source behavior and every maxRecords, whenever
`fetchOccurrencesForSpecies` returns a record list, its length is at most
`maxRecords`: the final accumulated list is truncated by
`all.slice(0, maxRecords)` even when a page overshoots the cap. -/
theorem C3_record_cap (pages : List Page) (maxRecords : Nat)
    (records : List OccurrenceRecord) (requests : Nat)
    (h : fetchOccurrencesForSpecies pages maxRecords = .ok records requests) :
    records.length ≤ maxRecords := by
  unfold fetchOccurrencesForSpecies at h
  cases hg : fetchGo maxRecords pages [] 0 <;> rw [hg] at h <;> cases h
  exact List.length_take_le _ _

/-- Witness for C3: a single page of three clean records with
`endOfRecords = false` and `maxRecords = 2`, where the page overshoots
the cap; the returned list has exactly two records. -/
theorem C3_record_cap_witness :
    fetchOccurrencesForSpecies [Page.ok [rawGood, rawGood, rawGood] false] 2 =
      .ok [toOcc rawGood, toOcc rawGood] 1 ∧
    [toOcc rawGood, toOcc rawGood].length ≤ 2 :=
  ⟨by decide, C3_record_cap [Page.ok [rawGood, rawGood, rawGood] false] 2
    [toOcc rawGood, toOcc rawGood] 1 (by decide)⟩

/-- Claim C4: a raw record of a page is in the sanitized output iff both
its decimalLatitude and decimalLongitude are numeric; and a page
containing malformed records never fails the fetch (a single page with
`endOfRecords = true` always yields a successful result). -/
theorem C4_coordinate_filter :
    (∀ (results : List RawRecord) (o : OccurrenceRecord),
       o ∈ sanitizePage results ↔
         ∃ r ∈ results, r.decimalLatitude.isNumber = true ∧
           r.decimalLongitude.isNumber = true ∧ o = toOcc r)
    ∧ (∀ (results : List RawRecord) (maxRecords : Nat), 0 < maxRecords →
        ∃ records requests,
          fetchOccurrencesForSpecies [Page.ok results true] maxRecords =
            .ok records requests) := by
  constructor
  · intro results o
    rw [mem_sanitizePage]
    simp only [hasNumericCoords, Bool.and_eq_true]
    constructor
    · rintro ⟨r, hr, ⟨h1, h2⟩, he⟩
      exact ⟨r, hr, h1, h2, he⟩
    · rintro ⟨r, hr, h1, h2, he⟩
      exact ⟨r, hr, ⟨h1, h2⟩, he⟩
  · intro results maxRecords h
    refine ⟨(sanitizePage results).take maxRecords, 1, ?_⟩
    simp [fetchOccurrencesForSpecies, fetchGo, h]

/-- Witness for C4: on the page `[rawGood, rawBad]`, the sanitized image
of the good record is in the output, and the fetch with the malformed
record aboard still succeeds. -/
theorem C4_coordinate_filter_witness :
    (toOcc rawGood ∈ sanitizePage [rawGood, rawBad] ↔
       ∃ r ∈ [rawGood, rawBad], r.decimalLatitude.isNumber = true ∧
         r.decimalLongitude.isNumber = true ∧ toOcc rawGood = toOcc r)
    ∧ (0 < 2000 ∧ ∃ records requests,
        fetchOccurrencesForSpecies [Page.ok [rawGood, rawBad] true] 2000 =
          .ok records requests) :=
  ⟨C4_coordinate_filter.1 [rawGood, rawBad] (toOcc rawGood),
   by decide, C4_coordinate_filter.2 [rawGood, rawBad] 2000 (by decide)⟩

/-- Claim C5: every record in a successful output of
`fetchOccurrencesForSpecies` is the sanitized image of some raw record
of the source whose decimalLatitude and decimalLongitude are both
numeric; records missing either never enter the output. -/
theorem C5_output_coords_numeric (pages : List Page) (maxRecords : Nat)
    (records : List OccurrenceRecord) (requests : Nat)
    (h : fetchOccurrencesForSpecies pages maxRecords = .ok records requests) :
    ∀ o ∈ records, ∃ r ∈ allRawResults pages,
      r.decimalLatitude.isNumber = true ∧ r.decimalLongitude.isNumber = true ∧
      o = toOcc r := by
  intro o ho
  unfold fetchOccurrencesForSpecies at h
  cases hg : fetchGo maxRecords pages [] 0 <;> rw [hg] at h <;> cases h
  have := fetchGo_done_mem pages [] 0 _ _ hg o (List.mem_of_mem_take ho)
  rcases this with hc | ⟨r, hr, hn, he⟩
  · cases hc
  · refine ⟨r, hr, ?_, ?_, he⟩
    · exact (Bool.and_eq_true _ _ ▸ hn).1
    · exact (Bool.and_eq_true _ _ ▸ hn).2

/-- Witness for C5: in the successful fetch over the page
`[rawGood, rawBad]`, the single output record traces back to a raw
record with numeric coordinates. -/
theorem C5_output_coords_numeric_witness :
    ∃ r ∈ allRawResults [Page.ok [rawGood, rawBad] true],
      r.decimalLatitude.isNumber = true ∧ r.decimalLongitude.isNumber = true ∧
      toOcc rawGood = toOcc r :=
  C5_output_coords_numeric [Page.ok [rawGood, rawBad] true] 2000
    [toOcc rawGood] 1 (by decide) (toOcc rawGood) (by decide)

/-- Claim C7: when a page request receives a non-success response, the
fetch fails at once with that status and reason, whatever was
accumulated from earlier pages (the accumulator is discarded, no record
list is returned) and whatever responses follow (no retry: the result
does not depend on them); in particular the result after a successful
non-final page followed by a failure is exactly the error. -/
theorem C7_error_propagation (maxRecords s : Nat) (t : String) (rest : List Page)
    (all : List OccurrenceRecord) (requests : Nat)
    (h : all.length < maxRecords) :
    fetchGo maxRecords (Page.err s t :: rest) all requests = .fetchError s t
    ∧ fetchOccurrencesForSpecies (Page.err s t :: rest) maxRecords = .error s t
    ∧ ∀ results : List RawRecord, results ≠ [] →
        (sanitizePage results).length < maxRecords →
        fetchOccurrencesForSpecies
          (Page.ok results false :: Page.err s t :: rest) maxRecords =
          .error s t := by
  have hpos : 0 < maxRecords := Nat.lt_of_le_of_lt (Nat.zero_le _) h
  refine ⟨?_, ?_, ?_⟩
  · rw [fetchGo]
    simp [h]
  · unfold fetchOccurrencesForSpecies
    rw [fetchGo]
    simp [hpos]
  · intro results hne hlen
    unfold fetchOccurrencesForSpecies
    rw [fetchGo]
    simp only [List.length_nil, hpos, if_true]
    rw [if_neg (by simp [List.length_eq_zero, hne]), fetchGo]
    simp [hlen]

/-- Witness for C7: a failing request (status 503) right after a
successful page of one record yields the error, with no partial result. -/
theorem C7_error_propagation_witness :
    fetchOccurrencesForSpecies
      [Page.ok [rawGood] false, Page.err 503 "Service Unavailable"] 2000 =
      .error 503 "Service Unavailable" :=
  (C7_error_propagation 2000 503 "Service Unavailable" [] [] 0
    (by decide)).2.2 [rawGood] (by decide) (by decide)

/-- Claim C8: the pagination loop stops exactly at the first of: the
accumulated count reached maxRecords (no further request is issued),
the response signalled endOfRecords, or the page carried zero raw
results; otherwise it continues with the next page. A source answering
one page of 10 clean records with endOfRecords gets exactly one request
and all 10 records are returned. -/
theorem C8_pagination_stop (maxRecords : Nat) :
    (∀ (pages : List Page) (all : List OccurrenceRecord) (requests : Nat),
       ¬ all.length < maxRecords →
       fetchGo maxRecords pages all requests = .done all requests)
    ∧ (∀ (results : List RawRecord) (rest : List Page)
         (all : List OccurrenceRecord) (requests : Nat),
         all.length < maxRecords →
         fetchGo maxRecords (Page.ok results true :: rest) all requests =
           .done (all ++ sanitizePage results) (requests + 1))
    ∧ (∀ (endOfRecords : Bool) (rest : List Page)
         (all : List OccurrenceRecord) (requests : Nat),
         all.length < maxRecords →
         fetchGo maxRecords (Page.ok [] endOfRecords :: rest) all requests =
           .done all (requests + 1))
    ∧ (∀ (results : List RawRecord) (rest : List Page)
         (all : List OccurrenceRecord) (requests : Nat),
         all.length < maxRecords → results ≠ [] →
         fetchGo maxRecords (Page.ok results false :: rest) all requests =
           fetchGo maxRecords rest (all ++ sanitizePage results) (requests + 1))
    ∧ (∀ results : List RawRecord, results.length = 10 →
         (∀ r ∈ results, hasNumericCoords r = true) → 10 ≤ maxRecords →
         fetchOccurrencesForSpecies [Page.ok results true] maxRecords =
           .ok (sanitizePage results) 1
         ∧ (sanitizePage results).length = 10) := by
  refine ⟨?_, ?_, ?_, ?_, ?_⟩
  · intro pages all requests h
    match pages with
    | [] => rw [fetchGo]; simp [h]
    | .err s t :: rest => rw [fetchGo]; simp [h]
    | .ok results endOfRecords :: rest => rw [fetchGo]; simp [h]
  · intro results rest all requests h
    rw [fetchGo]
    simp [h]
  · intro endOfRecords rest all requests h
    rw [fetchGo]
    simp [h, sanitizePage]
  · intro results rest all requests h hne
    rw [fetchGo]
    simp [h, List.length_eq_zero, hne]
  · intro results hlen hclean hmax
    have hfilter : results.filter hasNumericCoords = results :=
      List.filter_eq_self.mpr hclean
    have hslen : (sanitizePage results).length = 10 := by
      rw [sanitizePage, hfilter, List.length_map, hlen]
    have hpos : 0 < maxRecords := Nat.lt_of_lt_of_le (by omega) hmax
    refine ⟨?_, hslen⟩
    unfold fetchOccurrencesForSpecies
    rw [fetchGo]
    simp only [List.length_nil, hpos, if_true]
    simp [List.take_of_length_le (hslen ▸ hmax)]

/-- Witness for C8: ten clean records in one endOfRecords page, fetched
with the default cap 2000: one request, ten records. -/
theorem C8_pagination_stop_witness :
    fetchOccurrencesForSpecies
      [Page.ok (List.replicate 10 rawGood) true] 2000 =
      .ok (sanitizePage (List.replicate 10 rawGood)) 1
    ∧ (sanitizePage (List.replicate 10 rawGood)).length = 10 :=
  (C8_pagination_stop 2000).2.2.2.2 (List.replicate 10 rawGood)
    (by decide) (by decide) (by decide)

/-- The key a record is binned under: the pair of floor-divided indices. -/
def gridKeyOf (cellSizeDeg : Rat) (o : OccurrenceRecord) : Int × Int :=
  (cellIndex cellSizeDeg o.lat, cellIndex cellSizeDeg o.lng)

lemma exists_first_split {α : Type} (p : α → Prop) [DecidablePred p] :
    ∀ l : List α, (∃ x ∈ l, p x) →
      ∃ l1 x l2, l = l1 ++ x :: l2 ∧ p x ∧ ∀ y ∈ l1, ¬ p y := by
  intro l
  induction l with
  | nil =>
    rintro ⟨x, hx, _⟩
    cases hx
  | cons a rest ih =>
    intro h
    by_cases ha : p a
    · exact ⟨[], a, rest, rfl, ha, by simp⟩
    · have hrest : ∃ x ∈ rest, p x := by
        rcases h with ⟨x, hx, hpx⟩
        rcases List.mem_cons.mp hx with rfl | hx2
        · exact absurd hpx ha
        · exact ⟨x, hx2, hpx⟩
      rcases ih hrest with ⟨l1, x, l2, he, hpx, hfirst⟩
      refine ⟨a :: l1, x, l2, by rw [he]; rfl, hpx, ?_⟩
      intro y hy
      rcases List.mem_cons.mp hy with rfl | hy2
      · exact ha
      · exact hfirst y hy2

lemma addToGrid_of_not_mem (a b : Int) (o : OccurrenceRecord) :
    ∀ g : List CellAcc, (∀ c ∈ g, cellKey c ≠ (a, b)) →
      addToGrid a b o g =
        g ++ [{ latIdx := a, lngIdx := b, count := 1, samples := [o] }] := by
  intro g
  induction g with
  | nil => intro _; rfl
  | cons c rest ih =>
    intro h
    rw [addToGrid, if_neg, ih, List.cons_append]
    · intro d hd
      exact h d (List.mem_cons_of_mem _ hd)
    · intro hc
      exact h c (List.mem_cons_self _ _) (by rw [cellKey, hc.1, hc.2])

lemma addToGrid_of_split (a b : Int) (o : OccurrenceRecord) :
    ∀ (g1 : List CellAcc) (c : CellAcc) (g2 : List CellAcc),
      cellKey c = (a, b) → (∀ d ∈ g1, cellKey d ≠ (a, b)) →
      addToGrid a b o (g1 ++ c :: g2) =
        g1 ++ { c with count := c.count + 1, samples := c.samples ++ [o] } :: g2 := by
  intro g1
  induction g1 with
  | nil =>
    intro c g2 hc _
    simp only [List.nil_append]
    rw [addToGrid, if_pos]
    rw [cellKey] at hc
    exact ⟨congrArg Prod.fst hc, congrArg Prod.snd hc⟩
  | cons d rest ih =>
    intro c g2 hc hfirst
    simp only [List.cons_append]
    rw [addToGrid, if_neg, ih c g2 hc]
    · intro d2 hd2
      exact hfirst d2 (List.mem_cons_of_mem _ hd2)
    · intro hd
      exact hfirst d (List.mem_cons_self _ _) (by rw [cellKey, hd.1, hd.2])

/-- Invariant tying the insertion-ordered grid to the prefix of records
already processed: counts agree with samples, each cell holds exactly
the records binned to its key in input order, keys are distinct, and
every processed record has a cell. -/
def GridInv (k : OccurrenceRecord → Int × Int) (processed : List OccurrenceRecord)
    (grid : List CellAcc) : Prop :=
  (∀ c ∈ grid, c.count = c.samples.length)
  ∧ (∀ c ∈ grid, c.samples = processed.filter (fun o => decide (k o = cellKey c)))
  ∧ List.Pairwise (fun c d => cellKey c ≠ cellKey d) grid
  ∧ (∀ o ∈ processed, ∃ c ∈ grid, cellKey c = k o)

lemma gridInv_nil (k : OccurrenceRecord → Int × Int) : GridInv k [] [] := by
  refine ⟨?_, ?_, ?_, ?_⟩ <;> simp [GridInv]

lemma gridInv_step (k : OccurrenceRecord → Int × Int) (pr : List OccurrenceRecord)
    (g : List CellAcc) (o : OccurrenceRecord) (h : GridInv k pr g) :
    GridInv k (pr ++ [o]) (addToGrid (k o).1 (k o).2 o g) := by
  obtain ⟨h1, h2, h3, h4⟩ := h
  by_cases hex : ∃ c ∈ g, cellKey c = k o
  · obtain ⟨l1, c, l2, hg, hkey, hfirst⟩ :=
      exists_first_split (fun c => cellKey c = k o) g hex
    subst hg
    have hkey2 : cellKey { c with count := c.count + 1, samples := c.samples ++ [o] }
        = cellKey c := rfl
    have he : addToGrid (k o).1 (k o).2 o (l1 ++ c :: l2)
        = l1 ++ { c with count := c.count + 1, samples := c.samples ++ [o] } :: l2 := by
      apply addToGrid_of_split
      · rw [Prod.mk.eta]
        exact hkey
      · intro d hd
        rw [Prod.mk.eta]
        exact hfirst d hd
    rw [he]
    rw [List.pairwise_append] at h3
    obtain ⟨hp1, hp23, hx⟩ := h3
    rw [List.pairwise_cons] at hp23
    obtain ⟨hcl2, hp2⟩ := hp23
    have hne : ∀ d ∈ l1 ++ l2, cellKey d ≠ k o := by
      intro d hd
      rcases List.mem_append.mp hd with hd1 | hd2
      · exact hfirst d hd1
      · rw [← hkey]
        exact fun hdc => hcl2 d hd2 hdc.symm
    have hmemc : c ∈ l1 ++ c :: l2 :=
      List.mem_append_right _ (List.mem_cons_self _ _)
    refine ⟨?_, ?_, ?_, ?_⟩
    · intro d hd
      rcases List.mem_append.mp hd with hd1 | hd2
      · exact h1 d (List.mem_append_left _ hd1)
      · rcases List.mem_cons.mp hd2 with rfl | hd3
        · simp only [List.length_append, List.length_cons, List.length_nil]
          rw [h1 c hmemc]
        · exact h1 d (List.mem_append_right _ (List.mem_cons_of_mem _ hd3))
    · intro d hd
      rcases List.mem_append.mp hd with hd1 | hd2
      · rw [h2 d (List.mem_append_left _ hd1), List.filter_append]
        have : [o].filter (fun o2 => decide (k o2 = cellKey d)) = [] := by
          simp only [List.filter_cons, List.filter_nil, decide_eq_true_eq]
          rw [if_neg]
          exact fun hko => hne d (List.mem_append_left _ hd1) hko.symm
        rw [this, List.append_nil]
      · rcases List.mem_cons.mp hd2 with rfl | hd3
        · simp only [hkey2]
          rw [h2 c hmemc, List.filter_append]
          have : [o].filter (fun o2 => decide (k o2 = cellKey c)) = [o] := by
            simp only [List.filter_cons, List.filter_nil, decide_eq_true_eq]
            rw [if_pos hkey.symm]
          rw [this]
        · rw [h2 d (List.mem_append_right _ (List.mem_cons_of_mem _ hd3)),
            List.filter_append]
          have : [o].filter (fun o2 => decide (k o2 = cellKey d)) = [] := by
            simp only [List.filter_cons, List.filter_nil, decide_eq_true_eq]
            rw [if_neg]
            have := hne d (List.mem_append_right _ hd3)
            exact fun hko => this hko.symm
          rw [this, List.append_nil]
    · rw [List.pairwise_append, List.pairwise_cons]
      refine ⟨hp1, ⟨?_, hp2⟩, ?_⟩
      · intro d hd
        rw [hkey2]
        exact hcl2 d hd
      · intro x hx1 y hy
        rcases List.mem_cons.mp hy with rfl | hy2
        · rw [hkey2]
          exact hx x hx1 c (List.mem_cons_self _ _)
        · exact hx x hx1 y (List.mem_cons_of_mem _ hy2)
    · intro o2 ho2
      rcases List.mem_append.mp ho2 with ho21 | ho22
      · obtain ⟨d, hd, hdk⟩ := h4 o2 ho21
        rcases List.mem_append.mp hd with hd1 | hd2
        · exact ⟨d, List.mem_append_left _ hd1, hdk⟩
        · rcases List.mem_cons.mp hd2 with rfl | hd3
          · refine ⟨_, List.mem_append_right _ (List.mem_cons_self _ _), ?_⟩
            rw [hkey2]
            exact hdk
          · exact ⟨d, List.mem_append_right _ (List.mem_cons_of_mem _ hd3), hdk⟩
      · rcases List.mem_singleton.mp ho22 with rfl
        refine ⟨_, List.mem_append_right _ (List.mem_cons_self _ _), ?_⟩
        rw [hkey2]
        exact hkey
  · push_neg at hex
    have he : addToGrid (k o).1 (k o).2 o g
        = g ++ [{ latIdx := (k o).1, lngIdx := (k o).2, count := 1, samples := [o] }] := by
      apply addToGrid_of_not_mem
      intro c hc
      rw [Prod.mk.eta]
      exact hex c hc
    rw [he]
    have hfreshkey :
        cellKey { latIdx := (k o).1, lngIdx := (k o).2, count := 1, samples := [o] }
          = k o := by
      rw [cellKey, Prod.mk.eta]
    refine ⟨?_, ?_, ?_, ?_⟩
    · intro c hc
      rcases List.mem_append.mp hc with hc1 | hc2
      · exact h1 c hc1
      · rcases List.mem_singleton.mp hc2 with rfl
        rfl
    · intro c hc
      rcases List.mem_append.mp hc with hc1 | hc2
      · rw [h2 c hc1, List.filter_append]
        have : [o].filter (fun o2 => decide (k o2 = cellKey c)) = [] := by
          simp only [List.filter_cons, List.filter_nil, decide_eq_true_eq]
          rw [if_neg]
          exact fun hko => hex c hc1 hko.symm
        rw [this, List.append_nil]
      · rcases List.mem_singleton.mp hc2 with rfl
        rw [hfreshkey, List.filter_append]
        have hpr : pr.filter (fun o2 => decide (k o2 = k o)) = [] := by
          rw [List.filter_eq_nil_iff]
          intro o2 ho2
          simp only [decide_eq_true_eq]
          intro heq
          obtain ⟨c, hc, hck⟩ := h4 o2 ho2
          exact hex c hc (hck.trans heq)
        rw [hpr]
        simp
    · rw [List.pairwise_append]
      refine ⟨h3, List.pairwise_singleton _ _, ?_⟩
      intro c hc d hd
      rcases List.mem_singleton.mp hd with rfl
      rw [hfreshkey]
      exact hex c hc
    · intro o2 ho2
      rcases List.mem_append.mp ho2 with ho21 | ho22
      · obtain ⟨c, hc, hck⟩ := h4 o2 ho21
        exact ⟨c, List.mem_append_left _ hc, hck⟩
      · rcases List.mem_singleton.mp ho22 with rfl
        refine ⟨_, List.mem_append_right _ (List.mem_singleton_self _), ?_⟩
        exact hfreshkey

lemma gridInv_foldl (k : OccurrenceRecord → Int × Int) :
    ∀ (occs pr : List OccurrenceRecord) (g : List CellAcc),
      GridInv k pr g →
      GridInv k (pr ++ occs)
        (occs.foldl (fun g2 o => addToGrid (k o).1 (k o).2 o g2) g) := by
  intro occs
  induction occs with
  | nil =>
    intro pr g h
    simpa using h
  | cons o rest ih =>
    intro pr g h
    have hstep := gridInv_step k pr g o h
    have := ih (pr ++ [o]) _ hstep
    simpa [List.append_assoc] using this

lemma buildGrid_eq (cellSizeDeg : Rat) (occurrences : List OccurrenceRecord) :
    buildGrid cellSizeDeg occurrences =
      occurrences.foldl
        (fun g2 o => addToGrid (gridKeyOf cellSizeDeg o).1 (gridKeyOf cellSizeDeg o).2 o g2)
        [] := rfl

lemma buildGrid_inv (cellSizeDeg : Rat) (occurrences : List OccurrenceRecord) :
    GridInv (gridKeyOf cellSizeDeg) occurrences (buildGrid cellSizeDeg occurrences) := by
  rw [buildGrid_eq]
  have := gridInv_foldl (gridKeyOf cellSizeDeg) occurrences [] []
    (gridInv_nil (gridKeyOf cellSizeDeg))
  simpa using this

/-- Total record count held by a grid. -/
def totalCount (grid : List CellAcc) : Nat :=
  (grid.map (fun c => c.count)).sum

lemma totalCount_addToGrid (a b : Int) (o : OccurrenceRecord) :
    ∀ g : List CellAcc, totalCount (addToGrid a b o g) = totalCount g + 1 := by
  intro g
  induction g with
  | nil => rfl
  | cons c rest ih =>
    rw [addToGrid]
    by_cases hc : c.latIdx = a ∧ c.lngIdx = b
    · rw [if_pos hc]
      simp only [totalCount, List.map_cons, List.sum_cons]
      omega
    · rw [if_neg hc]
      simp only [totalCount, List.map_cons, List.sum_cons] at ih ⊢
      omega

lemma totalCount_buildGrid (cellSizeDeg : Rat) (occurrences : List OccurrenceRecord) :
    totalCount (buildGrid cellSizeDeg occurrences) = occurrences.length := by
  suffices hgen : ∀ (occs : List OccurrenceRecord) (g : List CellAcc),
      totalCount (occs.foldl
        (fun g2 o => addToGrid (cellIndex cellSizeDeg o.lat) (cellIndex cellSizeDeg o.lng) o g2) g)
        = totalCount g + occs.length by
    have := hgen occurrences []
    simpa [buildGrid, totalCount] using this
  intro occs
  induction occs with
  | nil => simp
  | cons o rest ih =>
    intro g
    simp only [List.foldl_cons, List.length_cons, ih, totalCount_addToGrid]
    omega

lemma tierCounts_split (high medium : Nat) :
    ∀ g : List CellAcc,
      (tierCounts high medium g).1 + (tierCounts high medium g).2.1
        + (tierCounts high medium g).2.2 = g.length := by
  intro g
  induction g with
  | nil => rfl
  | cons c rest ih =>
    rw [tierCounts]
    simp only [List.length_cons]
    split
    · simpa using by omega
    · split
      · simpa using by omega
      · simpa using by omega

lemma mem_cells_iff {occurrences : List OccurrenceRecord} {cellSizeDeg : Rat}
    {thresholds : Thresholds} {c : GridCell} :
    c ∈ (computeGridCells occurrences cellSizeDeg thresholds).cells ↔
      ∃ acc ∈ buildGrid cellSizeDeg occurrences,
        c = mkCell thresholds.high thresholds.medium cellSizeDeg acc := by
  simp only [computeGridCells, List.mem_map]
  constructor
  · rintro ⟨acc, hacc, rfl⟩
    exact ⟨acc, hacc, rfl⟩
  · rintro ⟨acc, hacc, rfl⟩
    exact ⟨acc, hacc, rfl⟩

/-- The single grid cell produced by aggregating `[pt0]` at cell size 1
with thresholds 30/10. -/
def cell0 : GridCell :=
  { id := (2, 3), lat := 5/2, lng := 7/2, count := 1, risk := "Low", samples := [pt0] }

lemma cells_pt0 : (computeGridCells [pt0] 1 ⟨30, 10⟩).cells = [cell0] := by
  norm_num [computeGridCells, buildGrid, addToGrid, cellIndex, mkCell, riskFor, pt0, cell0]

lemma mem_cells_pt0 : cell0 ∈ (computeGridCells [pt0] 1 ⟨30, 10⟩).cells := by
  rw [cells_pt0]
  exact List.mem_singleton_self _

/-- Claim C1: every cell emitted by `computeGridCells` carries the risk
tier of the if/else chain with the High check first — `"High"` when
`count >= high`, else `"Medium"` when `count >= medium`, else `"Low"` —
and at thresholds 30/10 a count of exactly 30 is High, exactly 10 is
Medium, and 9 is Low (ties land in the threshold tier). -/
theorem C1_risk_threshold_order (occurrences : List OccurrenceRecord)
    (cellSizeDeg : Rat) (thresholds : Thresholds) :
    (∀ c ∈ (computeGridCells occurrences cellSizeDeg thresholds).cells,
       c.risk = riskFor thresholds.high thresholds.medium c.count
       ∧ (thresholds.high ≤ c.count → c.risk = "High")
       ∧ (¬ thresholds.high ≤ c.count → thresholds.medium ≤ c.count → c.risk = "Medium")
       ∧ (¬ thresholds.high ≤ c.count → ¬ thresholds.medium ≤ c.count → c.risk = "Low"))
    ∧ riskFor 30 10 30 = "High" ∧ riskFor 30 10 10 = "Medium"
    ∧ riskFor 30 10 9 = "Low" := by
  refine ⟨?_, rfl, rfl, rfl⟩
  intro c hc
  obtain ⟨acc, hacc, rfl⟩ := mem_cells_iff.mp hc
  refine ⟨rfl, ?_, ?_, ?_⟩
  · intro hh
    have hh2 : thresholds.high ≤ acc.count := hh
    show riskFor thresholds.high thresholds.medium acc.count = "High"
    rw [riskFor, if_pos hh2]
  · intro hh hm
    have hh2 : ¬ thresholds.high ≤ acc.count := hh
    have hm2 : thresholds.medium ≤ acc.count := hm
    show riskFor thresholds.high thresholds.medium acc.count = "Medium"
    rw [riskFor, if_neg hh2, if_pos hm2]
  · intro hh hm
    have hh2 : ¬ thresholds.high ≤ acc.count := hh
    have hm2 : ¬ thresholds.medium ≤ acc.count := hm
    show riskFor thresholds.high thresholds.medium acc.count = "Low"
    rw [riskFor, if_neg hh2, if_neg hm2]

/-- Witness for C1: the single cell of the aggregation of `[pt0]` has
risk `riskFor 30 10 count`, which its count of 1 makes `"Low"`. -/
theorem C1_risk_threshold_order_witness :
    cell0.risk = riskFor 30 10 cell0.count ∧ cell0.risk = "Low" :=
  ⟨((C1_risk_threshold_order [pt0] 1 ⟨30, 10⟩).1 cell0 mem_cells_pt0).1,
   ((C1_risk_threshold_order [pt0] 1 ⟨30, 10⟩).1 cell0 mem_cells_pt0).2.2.2
     (by decide) (by decide)⟩

/-- Claim C2: for every input list, cell size, and thresholds, the
summary satisfies `highCount + medCount + lowCount = cellCount` and the
cell counts sum to `totalRecords`. -/
theorem C2_summary_consistency (occurrences : List OccurrenceRecord)
    (cellSizeDeg : Rat) (thresholds : Thresholds) :
    (computeGridCells occurrences cellSizeDeg thresholds).summary.highCount
      + (computeGridCells occurrences cellSizeDeg thresholds).summary.medCount
      + (computeGridCells occurrences cellSizeDeg thresholds).summary.lowCount
      = (computeGridCells occurrences cellSizeDeg thresholds).summary.cellCount
    ∧ ((computeGridCells occurrences cellSizeDeg thresholds).cells.map
        (fun c => c.count)).sum
      = (computeGridCells occurrences cellSizeDeg thresholds).summary.totalRecords := by
  constructor
  · show (tierCounts thresholds.high thresholds.medium (buildGrid cellSizeDeg occurrences)).1
      + (tierCounts thresholds.high thresholds.medium (buildGrid cellSizeDeg occurrences)).2.1
      + (tierCounts thresholds.high thresholds.medium (buildGrid cellSizeDeg occurrences)).2.2
      = ((buildGrid cellSizeDeg occurrences).map
          (mkCell thresholds.high thresholds.medium cellSizeDeg)).length
    rw [List.length_map]
    exact tierCounts_split thresholds.high thresholds.medium _
  · show (((buildGrid cellSizeDeg occurrences).map
        (mkCell thresholds.high thresholds.medium cellSizeDeg)).map
          (fun c => c.count)).sum = occurrences.length
    rw [List.map_map]
    exact totalCount_buildGrid cellSizeDeg occurrences

/-- Claim C6: `computeGridCells` bins each record into the cell indexed
by the mathematical floors of `lat / cellSize` and `lng / cellSize`,
each output cell is centered at `(index + 0.5) * cellSize`, and with
cell size 1 the point `(35.4, -120.9)` gets indices `(35, -121)`
(floor rounds toward negative infinity). -/
theorem C6_floor_binning :
    (∀ (occurrences : List OccurrenceRecord) (cellSizeDeg : Rat) (thresholds : Thresholds),
       ∀ c ∈ (computeGridCells occurrences cellSizeDeg thresholds).cells,
         c.lat = ((c.id.1 : Rat) + 1/2) * cellSizeDeg
         ∧ c.lng = ((c.id.2 : Rat) + 1/2) * cellSizeDeg)
    ∧ (∀ (occurrences : List OccurrenceRecord) (cellSizeDeg : Rat) (thresholds : Thresholds),
       ∀ o ∈ occurrences, ∃ c ∈ (computeGridCells occurrences cellSizeDeg thresholds).cells,
         c.id = (cellIndex cellSizeDeg o.lat, cellIndex cellSizeDeg o.lng) ∧ o ∈ c.samples)
    ∧ cellIndex 1 (35.4 : Rat) = 35 ∧ cellIndex 1 (-120.9 : Rat) = -121 := by
  refine ⟨?_, ?_, ?_, ?_⟩
  · intro occurrences cellSizeDeg thresholds c hc
    obtain ⟨acc, hacc, rfl⟩ := mem_cells_iff.mp hc
    exact ⟨rfl, rfl⟩
  · intro occurrences cellSizeDeg thresholds o ho
    obtain ⟨hcnt, hsam, hpw, hcov⟩ := buildGrid_inv cellSizeDeg occurrences
    obtain ⟨acc, hacc, hkey⟩ := hcov o ho
    refine ⟨mkCell thresholds.high thresholds.medium cellSizeDeg acc,
      mem_cells_iff.mpr ⟨acc, hacc, rfl⟩, ?_, ?_⟩
    · show cellKey acc = (cellIndex cellSizeDeg o.lat, cellIndex cellSizeDeg o.lng)
      exact hkey
    · show o ∈ acc.samples
      rw [hsam acc hacc]
      refine List.mem_filter.mpr ⟨ho, ?_⟩
      simp only [decide_eq_true_eq]
      exact hkey.symm
  · norm_num [cellIndex]
  · norm_num [cellIndex]

/-- Witness for C6: the cell of the aggregation of `[pt0]` is centered
at `(2.5, 3.5)`, and `pt0` sits in the cell keyed by the floors of its
coordinates. -/
theorem C6_floor_binning_witness :
    (cell0.lat = ((cell0.id.1 : Rat) + 1/2) * 1
      ∧ cell0.lng = ((cell0.id.2 : Rat) + 1/2) * 1)
    ∧ ∃ c ∈ (computeGridCells [pt0] 1 ⟨30, 10⟩).cells,
        c.id = (cellIndex 1 pt0.lat, cellIndex 1 pt0.lng) ∧ pt0 ∈ c.samples :=
  ⟨C6_floor_binning.1 [pt0] 1 ⟨30, 10⟩ cell0 mem_cells_pt0,
   C6_floor_binning.2.1 [pt0] 1 ⟨30, 10⟩ pt0 (List.mem_singleton_self _)⟩

/-- Claim C10: the samples lists of the output cells partition the
input: each cell holds, in input order, exactly the input records
binned to its key, the cell keys are pairwise distinct, every input
record has a cell, and each cell count equals its samples length. -/
theorem C10_samples_partition (occurrences : List OccurrenceRecord)
    (cellSizeDeg : Rat) (thresholds : Thresholds) :
    (∀ c ∈ (computeGridCells occurrences cellSizeDeg thresholds).cells,
       c.count = c.samples.length)
    ∧ (∀ c ∈ (computeGridCells occurrences cellSizeDeg thresholds).cells,
       c.samples = occurrences.filter (fun o => decide (gridKeyOf cellSizeDeg o = c.id)))
    ∧ List.Pairwise (fun c d => c.id ≠ d.id)
        (computeGridCells occurrences cellSizeDeg thresholds).cells
    ∧ (∀ o ∈ occurrences, ∃ c ∈ (computeGridCells occurrences cellSizeDeg thresholds).cells,
        c.id = gridKeyOf cellSizeDeg o) := by
  obtain ⟨hcnt, hsam, hpw, hcov⟩ := buildGrid_inv cellSizeDeg occurrences
  refine ⟨?_, ?_, ?_, ?_⟩
  · intro c hc
    obtain ⟨acc, hacc, rfl⟩ := mem_cells_iff.mp hc
    exact hcnt acc hacc
  · intro c hc
    obtain ⟨acc, hacc, rfl⟩ := mem_cells_iff.mp hc
    show acc.samples = _
    rw [hsam acc hacc]
    rfl
  · show List.Pairwise (fun c d => c.id ≠ d.id)
      ((buildGrid cellSizeDeg occurrences).map
        (mkCell thresholds.high thresholds.medium cellSizeDeg))
    rw [List.pairwise_map]
    exact hpw
  · intro o ho
    obtain ⟨acc, hacc, hkey⟩ := hcov o ho
    exact ⟨mkCell thresholds.high thresholds.medium cellSizeDeg acc,
      mem_cells_iff.mpr ⟨acc, hacc, rfl⟩, hkey⟩

/-- Witness for C10: on the one-record input `[pt0]`, the single cell
has count 1 equal to its samples length, its samples are exactly the
matching input records in order, and `pt0` has a cell. -/
theorem C10_samples_partition_witness :
    cell0.count = cell0.samples.length
    ∧ cell0.samples = [pt0].filter (fun o => decide (gridKeyOf 1 o = cell0.id))
    ∧ ∃ c ∈ (computeGridCells [pt0] 1 ⟨30, 10⟩).cells, c.id = gridKeyOf 1 pt0 :=
  ⟨(C10_samples_partition [pt0] 1 ⟨30, 10⟩).1 cell0 mem_cells_pt0,
   (C10_samples_partition [pt0] 1 ⟨30, 10⟩).2.1 cell0 mem_cells_pt0,
   (C10_samples_partition [pt0] 1 ⟨30, 10⟩).2.2.2 pt0 (List.mem_singleton_self _)⟩

end UrchinTracker
